import Mathlib

/-!
# Verification of the Book_It booking lifecycle core

A shallow embedding of the booking repository and service layers
(`app/repositories/booking_repo.py`, `app/services/booking_service.py`,
`app/routers/booking.py`) together with proofs about the booking
lifecycle engine.

Modelling conventions:
* instants are minutes since an arbitrary epoch (`Nat`); the service
  duration is in minutes, matching `duration_minutes`;
* record identifiers (UUIDs in the source) are `Nat`; the store assigns
  `nextId` at insertion, mirroring the server-side id default;
* the booking status is a closed variant compared by value, serialized
  to and from strings only at the store boundary;
* the database session is modelled by threading the store state through
  each operation; `commitOk` says whether the commit succeeds, and a
  failed commit rolls back to the state observed at the start of the
  call, mirroring `session.rollback()`.
-/

namespace BookIt

/-- Booking status enumeration from `app/db/models.py` (`BookingStatus`):
`pending` / `confirmed` / `cancelled` / `completed`. -/
inductive BookingStatus where
  | pending
  | confirmed
  | cancelled
  | completed
deriving DecidableEq, Repr

/-- A status counts as active (occupying its slot) when it is in
`{pending, confirmed}`, the set used by `Booking.status.in_(['pending', 'confirmed'])`
in the repository queries. -/
def isActiveStatus : BookingStatus → Bool
  | .pending => true
  | .confirmed => true
  | .cancelled => false
  | .completed => false

/-- The `bookings` row from `app/db/models.py`. -/
structure Booking where
  id : Nat
  user_id : Nat
  service_id : Nat
  start_time : Nat
  end_time : Nat
  status : BookingStatus
  created_at : Nat
deriving DecidableEq, Repr

/-- The two fields of the `services` row that the booking core reads,
plus its id (`app/db/models.py`). -/
structure Service where
  id : Nat
  duration_minutes : Nat
  is_active : Bool
deriving DecidableEq, Repr

/-- The database state visible to the booking core: the bookings table,
the services table, the set of user ids, and the id counter standing in
for `gen_random_uuid()`. -/
structure StoreState where
  bookings : List Booking
  services : List Service
  users : List Nat
  nextId : Nat
deriving DecidableEq, Repr

/-- The exception taxonomy of `app/core/exceptions.py` restricted to the
kinds the booking core raises. -/
inductive BookingError where
  | validation (msg : String)
  | notFound (resource : String)
  | authorization (msg : String)
  | conflict (msg : String)
  | database (msg : String)
deriving DecidableEq, Repr

/-- True exactly on a `ValidationError` result. -/
def isValidationE {α : Type} : Except BookingError α → Bool
  | .error (.validation _) => true
  | _ => false

/-- True exactly on a `ValidationError` or `AuthorizationError` result. -/
def isValidationOrAuthE {α : Type} : Except BookingError α → Bool
  | .error (.validation _) => true
  | .error (.authorization _) => true
  | _ => false

/-- True exactly on a successful result. -/
def isOkE {α : Type} : Except BookingError α → Bool
  | .ok _ => true
  | .error _ => false

/-- `ServiceRepository.get_by_id`: first service row with the given id. -/
def getService (st : StoreState) (service_id : Nat) : Option Service :=
  st.services.find? (fun s => s.id == service_id)

/-- `BookingRepository.get_by_id`: first booking row with the given id. -/
def get_by_id (bs : List Booking) (booking_id : Nat) : Option Booking :=
  bs.find? (fun b => b.id == booking_id)

/-- `BookingRepository.find_overlapping_bookings`: bookings of the given
service with status in `{pending, confirmed}` satisfying
`start_time < end AND end_time > start`, optionally excluding one id. -/
def find_overlapping_bookings (bs : List Booking) (service_id : Nat)
    (start_time end_time : Nat) (exclude_booking_id : Option Nat) : List Booking :=
  bs.filter fun b =>
    b.service_id == service_id && isActiveStatus b.status &&
    decide (b.start_time < end_time) && decide (b.end_time > start_time) &&
    (match exclude_booking_id with
     | none => true
     | some i => b.id != i)

/-- `BookingRepository.create`: `db.add` assigns the server-side id and
`created_at`, then the commit either persists the staged row or rolls
back. -/
def repo_create (st : StoreState) (now : Nat) (commitOk : Bool) (b : Booking) :
    StoreState × Except BookingError Booking :=
  if commitOk then
    ({ st with
        bookings := st.bookings ++ [{ b with id := st.nextId, created_at := now }],
        nextId := st.nextId + 1 },
     .ok { b with id := st.nextId, created_at := now })
  else
    (st, .error (.database "Failed to create booking"))

/-- The validated field bundle passed to `BookingRepository.create_from_dict`
by the booking service. -/
structure NewBookingData where
  user_id : Nat
  service_id : Nat
  start_time : Nat
  end_time : Nat
  status : BookingStatus
deriving DecidableEq, Repr

/-- `BookingRepository.create_from_dict`: validates the user, the service
and its active flag, the time order, the past-start rule and the absence
of conflicts, then inserts the row. -/
def create_from_dict (st : StoreState) (now : Nat) (commitOk : Bool)
    (data : NewBookingData) : StoreState × Except BookingError Booking :=
  if st.users.contains data.user_id = false then
    (st, .error (.validation "User not found"))
  else
    match getService st data.service_id with
    | none => (st, .error (.validation "Service not found"))
    | some service =>
      if service.is_active = false then
        (st, .error (.validation "Service is not available for booking"))
      else if data.end_time ≤ data.start_time then
        (st, .error (.validation "Start time must be before end time"))
      else if data.start_time < now then
        (st, .error (.validation "Cannot book appointments in the past"))
      else if find_overlapping_bookings st.bookings data.service_id
          data.start_time data.end_time none ≠ [] then
        (st, .error (.conflict "Time slot conflicts with existing booking"))
      else
        repo_create st now commitOk
          { id := 0, user_id := data.user_id, service_id := data.service_id,
            start_time := data.start_time, end_time := data.end_time,
            status := data.status, created_at := 0 }

/-- `BookingService.create_booking`: future-start check, service lookup
and active check, end time derivation from the duration, conflict
pre-check, then insertion via `create_from_dict`. -/
def create_booking (st : StoreState) (now : Nat) (commitOk : Bool)
    (user_id service_id : Nat) (start_time : Nat) :
    StoreState × Except BookingError Booking :=
  if start_time ≤ now then
    (st, .error (.validation "Booking start time must be in the future"))
  else
    match getService st service_id with
    | none => (st, .error (.notFound "Service"))
    | some service =>
      if service.is_active = false then
        (st, .error (.validation "Service is not available for booking"))
      else
        if find_overlapping_bookings st.bookings service_id start_time
            (start_time + service.duration_minutes) none ≠ [] then
          (st, .error (.conflict "Time slot conflicts with existing booking"))
        else
          create_from_dict st now commitOk
            { user_id := user_id, service_id := service_id,
              start_time := start_time,
              end_time := start_time + service.duration_minutes,
              status := BookingStatus.pending }

/-- The update payload reaching `BookingRepository.update` as a dict;
every column name that could be supplied is an optional field. -/
structure UpdatePayload where
  id : Option Nat := none
  user_id : Option Nat := none
  service_id : Option Nat := none
  created_at : Option Nat := none
  start_time : Option Nat := none
  end_time : Option Nat := none
  status : Option BookingStatus := none
deriving DecidableEq, Repr

/-- The repository filters the payload down to
`valid_fields = {start_time, end_time, status}` and applies only those
via `setattr`; every other supplied field is dropped. -/
def applyValidFields (b : Booking) (p : UpdatePayload) : Booking :=
  { b with
    start_time := p.start_time.getD b.start_time,
    end_time := p.end_time.getD b.end_time,
    status := p.status.getD b.status }

/-- The status-transition business rules of `BookingRepository.update`:
a completed booking may only keep status `completed`, a cancelled one
may only keep status `cancelled`. -/
def checkStatusTransition (current : BookingStatus) :
    Option BookingStatus → Except BookingError Unit
  | none => .ok ()
  | some new_status =>
    if current = .completed ∧ new_status ≠ .completed then
      .error (.validation "Cannot change status of completed booking")
    else if current = .cancelled ∧ new_status ≠ .cancelled then
      .error (.validation "Cannot reactivate cancelled booking")
    else .ok ()

/-- The time-update rules of `BookingRepository.update`: when a time
field is supplied, the effective interval must be ordered, must not
start in the past, and must not overlap any other active booking of the
same service (the booking itself is excluded). -/
def checkReschedule (st : StoreState) (now : Nat) (b : Booking) (p : UpdatePayload) :
    Except BookingError Unit :=
  if p.start_time = none ∧ p.end_time = none then .ok ()
  else
    if p.end_time.getD b.end_time ≤ p.start_time.getD b.start_time then
      .error (.validation "Start time must be before end time")
    else if p.start_time.getD b.start_time < now then
      .error (.validation "Cannot reschedule to past time")
    else if find_overlapping_bookings st.bookings b.service_id
        (p.start_time.getD b.start_time) (p.end_time.getD b.end_time)
        (some b.id) ≠ [] then
      .error (.conflict "New time slot conflicts with existing booking")
    else .ok ()

/-- Replace the booking row with the given primary key. -/
def replaceById (bs : List Booking) (i : Nat) (b : Booking) : List Booking :=
  bs.map fun x => if x.id = i then b else x

/-- `BookingRepository.update`: status-transition rules, time rules with
conflict re-check, then the filtered fields are applied and the commit
either persists or rolls back. -/
def repo_update (st : StoreState) (now : Nat) (commitOk : Bool)
    (b : Booking) (p : UpdatePayload) : StoreState × Except BookingError Booking :=
  match checkStatusTransition b.status p.status with
  | .error e => (st, .error e)
  | .ok _ =>
    match checkReschedule st now b p with
    | .error e => (st, .error e)
    | .ok _ =>
      if commitOk then
        ({ st with bookings := replaceById st.bookings b.id (applyValidFields b p) },
         .ok (applyValidFields b p))
      else
        (st, .error (.database "Failed to update booking"))

/-- The status branch of `BookingService.update_booking`: admins may
request any status value; owners may only request `cancelled`, and only
while the booking is pending or confirmed. -/
def statusUpdate (b : Booking) (is_admin : Bool) :
    Option BookingStatus → Except BookingError (Option BookingStatus)
  | none => .ok none
  | some s =>
    if is_admin then .ok (some s)
    else if s = .cancelled then
      if isActiveStatus b.status then .ok (some s)
      else .error (.validation "Cannot cancel booking with this status")
    else
      .error (.authorization "Only admins can change booking status except cancellation")

/-- The reschedule branch of `BookingService.update_booking`: requires a
pending or confirmed booking, a strictly future start, an existing
service for the duration, and no conflict with other bookings. -/
def rescheduleUpdate (st : StoreState) (now : Nat) (b : Booking) (booking_id : Nat) :
    Option Nat → Except BookingError (Option (Nat × Nat))
  | none => .ok none
  | some t =>
    if isActiveStatus b.status = false then
      .error (.validation "Cannot reschedule booking with this status")
    else if t ≤ now then
      .error (.validation "New booking time must be in the future")
    else
      match getService st b.service_id with
      | none => .error (.notFound "Service")
      | some service =>
        if find_overlapping_bookings st.bookings b.service_id t
            (t + service.duration_minutes) (some booking_id) ≠ [] then
          .error (.conflict "New time slot conflicts with existing booking")
        else .ok (some (t, t + service.duration_minutes))

/-- `BookingService.update_booking`: lookup, ownership check, status
branch, reschedule branch, nothing-to-update check, then
`BookingRepository.update`. -/
def update_booking (st : StoreState) (now : Nat) (commitOk : Bool)
    (booking_id user_id : Nat) (is_admin : Bool)
    (start_time : Option Nat) (status : Option BookingStatus) :
    StoreState × Except BookingError Booking :=
  match get_by_id st.bookings booking_id with
  | none => (st, .error (.notFound "Booking"))
  | some booking =>
    if is_admin = false ∧ booking.user_id ≠ user_id then
      (st, .error (.authorization "You can only update your own bookings"))
    else
      match statusUpdate booking is_admin status with
      | .error e => (st, .error e)
      | .ok stUpd =>
        match rescheduleUpdate st now booking booking_id start_time with
        | .error e => (st, .error e)
        | .ok tUpd =>
          if stUpd = none ∧ tUpd = none then
            (st, .error (.validation "No valid fields to update"))
          else
            repo_update st now commitOk booking
              { start_time := tUpd.map Prod.fst,
                end_time := tUpd.map Prod.snd,
                status := stUpd }

/-- `BookingService.cancel_booking`: the owner-path status update to
`cancelled`. -/
def cancel_booking (st : StoreState) (now : Nat) (commitOk : Bool)
    (booking_id user_id : Nat) : StoreState × Except BookingError Booking :=
  update_booking st now commitOk booking_id user_id false none
    (some BookingStatus.cancelled)

/-- `BookingRepository.delete`: rejects a booking that has already
started or is completed — for every caller — then removes the row. -/
def repo_delete (st : StoreState) (now : Nat) (commitOk : Bool) (b : Booking) :
    StoreState × Except BookingError Bool :=
  if b.start_time ≤ now then
    (st, .error (.validation "Cannot delete booking that has already started"))
  else if b.status = .completed then
    (st, .error (.validation "Cannot delete completed booking"))
  else if commitOk then
    ({ st with bookings := st.bookings.filter (fun x => x.id != b.id) }, .ok true)
  else
    (st, .error (.database "Failed to delete booking"))

/-- `BookingService.delete_booking`: lookup, ownership check, the
non-admin-only started/completed rules, then `BookingRepository.delete`. -/
def delete_booking (st : StoreState) (now : Nat) (commitOk : Bool)
    (booking_id user_id : Nat) (is_admin : Bool) :
    StoreState × Except BookingError Bool :=
  match get_by_id st.bookings booking_id with
  | none => (st, .error (.notFound "Booking"))
  | some booking =>
    if is_admin = false ∧ booking.user_id ≠ user_id then
      (st, .error (.authorization "You can only delete your own bookings"))
    else if is_admin = false ∧ booking.start_time ≤ now then
      (st, .error (.validation "Cannot delete bookings that have already started"))
    else if is_admin = false ∧ booking.status = .completed then
      (st, .error (.validation "Cannot delete completed bookings"))
    else
      repo_delete st now commitOk booking

/-- Ascending order on `start_time` (`order_by(Booking.start_time)`). -/
def startAsc (a b : Booking) : Prop := a.start_time ≤ b.start_time

/-- Descending order on `start_time` (`order_by(Booking.start_time.desc())`). -/
def startDesc (a b : Booking) : Prop := b.start_time ≤ a.start_time

instance : DecidableRel startAsc := fun a b => by unfold startAsc; infer_instance

instance : DecidableRel startDesc := fun a b => by unfold startDesc; infer_instance

instance : IsTotal Booking startAsc :=
  ⟨fun a b => Nat.le_total a.start_time b.start_time⟩

instance : IsTrans Booking startAsc :=
  ⟨fun _ _ _ h h2 => Nat.le_trans h h2⟩

instance : IsTotal Booking startDesc :=
  ⟨fun a b => (Nat.le_total b.start_time a.start_time).elim Or.inl Or.inr⟩

instance : IsTrans Booking startDesc :=
  ⟨fun _ _ _ h h2 => Nat.le_trans h2 h⟩

/-- The `order_by` clause of the repository queries, as a sort of the
filtered rows. -/
def sortBookings (r : Booking → Booking → Prop) [DecidableRel r]
    (l : List Booking) : List Booking :=
  List.insertionSort r l

/-- `BookingRepository.get_all`: the user filter applies only to
non-admin callers that supply a user id; the status and date filters
compose with AND; the result is ordered by most recent start first. -/
def get_all (bs : List Booking) (user_id : Option Nat) (admin : Bool)
    (status : Option BookingStatus) (from_date to_date : Option Nat) :
    List Booking :=
  let q := bs
  let q := match user_id with
           | some u => if admin then q else q.filter (fun b => b.user_id == u)
           | none => q
  let q := match status with
           | some s => q.filter (fun b => b.status == s)
           | none => q
  let q := match from_date with
           | some f => q.filter (fun b => decide (f ≤ b.start_time))
           | none => q
  let q := match to_date with
           | some t => q.filter (fun b => decide (b.end_time ≤ t))
           | none => q
  sortBookings startDesc q

/-- The `GET /bookings/` route (`app/routers/booking.py`, `list_bookings`):
admins call the service with `user_id = None`, everybody else with their
own id. -/
def list_bookings_route (st : StoreState) (caller_id : Nat) (caller_is_admin : Bool)
    (status : Option BookingStatus) (from_date to_date : Option Nat) :
    List Booking :=
  get_all st.bookings
    (if caller_is_admin then none else some caller_id)
    caller_is_admin status from_date to_date

/-- Minutes in a day. -/
def minutesPerDay : Nat := 1440

/-- The upper bound computed by `BookingRepository.get_upcoming_bookings`:
`now.replace(hour=23, minute=59, second=59) + timedelta(days=days_ahead)`.
At minute granularity the end of the current day is minute 1439. -/
def upcomingUpperBound (now : Nat) (days_ahead : Nat) : Nat :=
  (now / minutesPerDay) * minutesPerDay + 1439 + days_ahead * minutesPerDay

/-- `BookingRepository.get_upcoming_bookings`: active bookings starting
between `now` and the end-of-day bound, optionally restricted to one
user, ordered by start time ascending. -/
def get_upcoming_bookings (bs : List Booking) (now : Nat)
    (user_id : Option Nat) (days_ahead : Nat) : List Booking :=
  let q := bs.filter fun b =>
    decide (now ≤ b.start_time) &&
    decide (b.start_time ≤ upcomingUpperBound now days_ahead) &&
    isActiveStatus b.status
  let q := match user_id with
           | some u => q.filter (fun b => b.user_id == u)
           | none => q
  sortBookings startAsc q

/-- The `GET /bookings/upcoming/me` route
(`app/routers/booking.py`, `get_my_upcoming_bookings`): the query
parameter is validated with `ge=1, le=365`; the caller is always the
requester. -/
def upcoming_route (st : StoreState) (now : Nat) (caller_id : Nat)
    (days_ahead : Int) : Except BookingError (List Booking) :=
  if days_ahead < 1 ∨ 365 < days_ahead then
    .error (.validation "days_ahead must be between 1 and 365")
  else
    .ok (get_upcoming_bookings st.bookings now (some caller_id) days_ahead.toNat)

/-- The mutating operations of the booking lifecycle engine. -/
inductive BookingOp where
  | createOp (user_id service_id start_time : Nat)
  | updateOp (booking_id user_id : Nat) (is_admin : Bool)
      (start_time : Option Nat) (status : Option BookingStatus)
  | cancelOp (booking_id user_id : Nat)
  | deleteOp (booking_id user_id : Nat) (is_admin : Bool)
deriving DecidableEq, Repr

/-- The store state after one lifecycle operation. -/
def applyOp (st : StoreState) (now : Nat) (commitOk : Bool) : BookingOp → StoreState
  | .createOp u s t => (create_booking st now commitOk u s t).1
  | .updateOp bid u adm t s => (update_booking st now commitOk bid u adm t s).1
  | .cancelOp bid u => (cancel_booking st now commitOk bid u).1
  | .deleteOp bid u adm => (delete_booking st now commitOk bid u adm).1

/-- Two bookings overlap when `A.start < B.end AND A.end > B.start`. -/
def overlapping (a b : Booking) : Prop :=
  a.start_time < b.end_time ∧ a.end_time > b.start_time

/-- Two bookings are compatible when, if they belong to the same service
and both are active, they do not overlap. -/
def compatible (a b : Booking) : Prop :=
  a.service_id = b.service_id → isActiveStatus a.status = true →
    isActiveStatus b.status = true → ¬ overlapping a b

/-- The no-double-booking invariant: for each service, the active
bookings are pairwise non-overlapping. -/
def noDoubleBooking (bs : List Booking) : Prop :=
  List.Pairwise compatible bs

/-- Primary keys are distinct in the bookings table. -/
def idsDistinct (bs : List Booking) : Prop :=
  (bs.map Booking.id).Nodup

/-- Every stored id is below the id counter, so freshly assigned ids
are new. -/
def idsFresh (st : StoreState) : Prop :=
  ∀ b ∈ st.bookings, b.id < st.nextId

/-- The store invariant of reachable states: fresh id counter, distinct
primary keys, and no double booking. -/
def StoreInv (st : StoreState) : Prop :=
  idsFresh st ∧ idsDistinct st.bookings ∧ noDoubleBooking st.bookings

instance (a b : Booking) : Decidable (overlapping a b) := by
  unfold overlapping; infer_instance

instance (a b : Booking) : Decidable (compatible a b) := by
  unfold compatible; infer_instance

instance (bs : List Booking) : Decidable (noDoubleBooking bs) := by
  unfold noDoubleBooking; infer_instance

instance (bs : List Booking) : Decidable (idsDistinct bs) := by
  unfold idsDistinct; infer_instance

instance (st : StoreState) : Decidable (idsFresh st) := by
  unfold idsFresh; infer_instance

instance (st : StoreState) : Decidable (StoreInv st) := by
  unfold StoreInv; infer_instance

/-! Concrete states used to instantiate the theorems below. -/

/-- A sixty-minute active service. -/
def exService : Service := { id := 1, duration_minutes := 60, is_active := true }

/-- An empty store offering `exService` to users 7 and 8. -/
def exEmpty : StoreState :=
  { bookings := [], services := [exService], users := [7, 8], nextId := 1 }

/-- A confirmed booking of user 7 on `[2000, 2060)`. -/
def exConfirmed : Booking :=
  { id := 5, user_id := 7, service_id := 1, start_time := 2000, end_time := 2060,
    status := .confirmed, created_at := 0 }

/-- A store holding only `exConfirmed`. -/
def exStConfirmed : StoreState :=
  { bookings := [exConfirmed], services := [exService], users := [7, 8], nextId := 6 }

/-- A completed booking of user 7 on `[500, 560)`. -/
def exCompleted : Booking :=
  { id := 9, user_id := 7, service_id := 1, start_time := 500, end_time := 560,
    status := .completed, created_at := 0 }

/-- A store holding only `exCompleted`. -/
def exStCompleted : StoreState :=
  { bookings := [exCompleted], services := [exService], users := [7, 8], nextId := 10 }

/-- A pending booking of user 7 starting at minute 1540 of day two. -/
def exUpcoming : Booking :=
  { id := 2, user_id := 7, service_id := 1, start_time := 1540, end_time := 1600,
    status := .pending, created_at := 0 }

/-- A store holding only `exUpcoming`. -/
def exStUpcoming : StoreState :=
  { bookings := [exUpcoming], services := [exService], users := [7, 8], nextId := 3 }

/-- The status-change triples the code accepts: an admin may move a
booking between any statuses while it is active and may keep a terminal
status unchanged; an owner may only cancel an active booking. The §4.3
table is this predicate without the admin edges pending→pending,
confirmed→pending, confirmed→confirmed, completed→completed and
cancelled→cancelled. -/
def codeAllowsTransition (current new : BookingStatus) (is_admin : Bool) : Bool :=
  if is_admin then isActiveStatus current || (new == current)
  else (new == BookingStatus.cancelled) && isActiveStatus current

/-- Modelled from the spec: the §4.3 transition table. `pending →
confirmed` (admin), `pending → cancelled` (owner or admin), `pending →
completed` (admin), `confirmed → cancelled` (owner or admin),
`confirmed → completed` (admin); terminal states have no outgoing
edges. Used only to compare the spec table with the code behaviour. -/
def specTableAllows (current new : BookingStatus) (actor_is_admin : Bool) : Bool :=
  match current, new with
  | .pending, .confirmed => actor_is_admin
  | .pending, .cancelled => true
  | .pending, .completed => actor_is_admin
  | .confirmed, .cancelled => true
  | .confirmed, .completed => actor_is_admin
  | _, _ => false

/-- The booking created by a successful `create_booking` on `exEmpty`
at `now = 100`, `start = 200`. -/
def exCreated : Booking :=
  { id := 1, user_id := 7, service_id := 1, start_time := 200, end_time := 260,
    status := .pending, created_at := 100 }

/-- The store after that creation. -/
def exStAfterCreate : StoreState :=
  { bookings := [exCreated], services := [exService], users := [7, 8], nextId := 2 }

/-- An update payload that tries to overwrite the immutable columns and
cancels the booking. -/
def exPayload : UpdatePayload :=
  { id := some 99, user_id := some 42, service_id := some 3, created_at := some 123,
    status := some .cancelled }

/-- `exConfirmed` after applying `exPayload`: only the status changed. -/
def exCancelledRes : Booking :=
  { id := 5, user_id := 7, service_id := 1, start_time := 2000, end_time := 2060,
    status := .cancelled, created_at := 0 }

/-! Characterizations of the conflict query. -/

/-- Membership in the conflict query without an excluded id. -/
theorem mem_find_overlapping_none {bs : List Booking} {sid s e : Nat} {b : Booking} :
    b ∈ find_overlapping_bookings bs sid s e none ↔
      b ∈ bs ∧ b.service_id = sid ∧ isActiveStatus b.status = true ∧
        b.start_time < e ∧ s < b.end_time := by
  unfold find_overlapping_bookings
  simp [List.mem_filter, and_assoc]

/-- Membership in the conflict query with an excluded id. -/
theorem mem_find_overlapping_some {bs : List Booking} {sid s e i : Nat} {b : Booking} :
    b ∈ find_overlapping_bookings bs sid s e (some i) ↔
      b ∈ bs ∧ b.service_id = sid ∧ isActiveStatus b.status = true ∧
        b.start_time < e ∧ s < b.end_time ∧ b.id ≠ i := by
  unfold find_overlapping_bookings
  simp [List.mem_filter, and_assoc]

/-- An empty conflict query means no same-service active booking
overlaps the candidate interval. -/
theorem not_overlapping_of_nil_none {bs : List Booking} {sid s e : Nat}
    (h : find_overlapping_bookings bs sid s e none = [])
    {b : Booking} (hb : b ∈ bs) (hsvc : b.service_id = sid)
    (hact : isActiveStatus b.status = true) :
    ¬ (b.start_time < e ∧ s < b.end_time) := by
  intro hov
  have hmem : b ∈ find_overlapping_bookings bs sid s e none :=
    mem_find_overlapping_none.2 ⟨hb, hsvc, hact, hov.1, hov.2⟩
  rw [h] at hmem
  exact absurd hmem (List.not_mem_nil b)

/-- An empty conflict query with an excluded id means no other
same-service active booking overlaps the candidate interval. -/
theorem not_overlapping_of_nil_some {bs : List Booking} {sid s e i : Nat}
    (h : find_overlapping_bookings bs sid s e (some i) = [])
    {b : Booking} (hb : b ∈ bs) (hsvc : b.service_id = sid)
    (hact : isActiveStatus b.status = true) (hid : b.id ≠ i) :
    ¬ (b.start_time < e ∧ s < b.end_time) := by
  intro hov
  have hmem : b ∈ find_overlapping_bookings bs sid s e (some i) :=
    mem_find_overlapping_some.2 ⟨hb, hsvc, hact, hov.1, hov.2, hid⟩
  rw [h] at hmem
  exact absurd hmem (List.not_mem_nil b)

/-- Overlap is symmetric. -/
theorem overlapping_comm {a b : Booking} : overlapping a b ↔ overlapping b a := by
  unfold overlapping
  omega

/-- Compatibility is symmetric. -/
theorem compatible_comm {a b : Booking} (h : compatible a b) : compatible b a := by
  intro hsvc hact hbct hov
  exact h hsvc.symm hbct hact (overlapping_comm.2 hov)

/-! Sorting lemmas. -/

/-- Sorting does not change membership. -/
theorem mem_sortBookings {r : Booking → Booking → Prop} [DecidableRel r]
    {l : List Booking} {b : Booking} :
    b ∈ sortBookings r l ↔ b ∈ l :=
  (List.perm_insertionSort r l).mem_iff

/-- The sorted query output is pairwise ordered. -/
theorem sortBookings_sorted (r : Booking → Booking → Prop) [DecidableRel r]
    [IsTotal Booking r] [IsTrans Booking r] (l : List Booking) :
    List.Pairwise r (sortBookings r l) :=
  List.sorted_insertionSort r l

/-! Shapes of the create path. -/

/-- A result that is either an unchanged state or a success has the
unchanged state on every error. -/
theorem state_unchanged_of_error {α : Type} {st st2 : StoreState}
    {r : Except BookingError α}
    (hcases : st2 = st ∨ ∃ a, r = .ok a)
    {e : BookingError} (he : r = .error e) : st2 = st := by
  rcases hcases with h | ⟨a, ha⟩
  · exact h
  · rw [ha] at he
    simp at he

/-- `create_booking` either leaves the store unchanged or succeeds. -/
theorem create_booking_cases (st : StoreState) (now : Nat) (commitOk : Bool)
    (u sid t : Nat) :
    ∀ st2 r, create_booking st now commitOk u sid t = (st2, r) →
      st2 = st ∨ ∃ b, r = .ok b := by
  intro st2 r h
  simp only [create_booking, create_from_dict, repo_create] at h
  repeat' split at h
  all_goals injection h with h1 h2
  all_goals first
    | exact Or.inl h1.symm
    | exact Or.inr ⟨_, h2.symm⟩

/-- `update_booking` either leaves the store unchanged or succeeds. -/
theorem update_booking_cases (st : StoreState) (now : Nat) (commitOk : Bool)
    (bid uid : Nat) (adm : Bool) (t? : Option Nat) (s? : Option BookingStatus) :
    ∀ st2 r, update_booking st now commitOk bid uid adm t? s? = (st2, r) →
      st2 = st ∨ ∃ b, r = .ok b := by
  intro st2 r h
  simp only [update_booking, repo_update] at h
  repeat' split at h
  all_goals injection h with h1 h2
  all_goals first
    | exact Or.inl h1.symm
    | exact Or.inr ⟨_, h2.symm⟩

/-- `delete_booking` either leaves the store unchanged or succeeds. -/
theorem delete_booking_cases (st : StoreState) (now : Nat) (commitOk : Bool)
    (bid uid : Nat) (adm : Bool) :
    ∀ st2 r, delete_booking st now commitOk bid uid adm = (st2, r) →
      st2 = st ∨ ∃ b, r = .ok b := by
  intro st2 r h
  simp only [delete_booking, repo_delete] at h
  repeat' split at h
  all_goals injection h with h1 h2
  all_goals first
    | exact Or.inl h1.symm
    | exact Or.inr ⟨_, h2.symm⟩

/-- Success shape of `create_from_dict`. -/
theorem create_from_dict_ok {st : StoreState} {now : Nat} {commitOk : Bool}
    {d : NewBookingData} {st2 : StoreState} {b : Booking}
    (h : create_from_dict st now commitOk d = (st2, .ok b)) :
    b = { id := st.nextId, user_id := d.user_id, service_id := d.service_id,
          start_time := d.start_time, end_time := d.end_time,
          status := d.status, created_at := now } ∧
    st2 = { st with bookings := st.bookings ++ [b], nextId := st.nextId + 1 } ∧
    d.start_time < d.end_time ∧ now ≤ d.start_time ∧
    find_overlapping_bookings st.bookings d.service_id d.start_time d.end_time none
      = [] := by
  unfold create_from_dict repo_create at h
  split at h
  · simp at h
  split at h
  · simp at h
  split at h
  · simp at h
  split at h
  · simp at h
  next hord =>
    split at h
    · simp at h
    next hpast =>
      split at h
      · simp at h
      next hconf =>
        split at h
        · next =>
          obtain ⟨h1, h2⟩ := Prod.mk.injEq .. ▸ h
          injection h2 with h2
          subst h2
          exact ⟨rfl, h1.symm, by omega, by omega, by simpa using hconf⟩
        · simp at h

/-- Success shape of `create_booking`: the persisted booking starts at
the requested instant, ends after the service duration, is pending, and
is appended to the store after an empty conflict check. -/
theorem create_booking_ok {st : StoreState} {now : Nat} {commitOk : Bool}
    {u sid t : Nat} {st2 : StoreState} {b : Booking}
    (h : create_booking st now commitOk u sid t = (st2, .ok b)) :
    ∃ service, getService st sid = some service ∧ service.is_active = true ∧
      now < t ∧
      find_overlapping_bookings st.bookings sid t (t + service.duration_minutes) none
        = [] ∧
      b = { id := st.nextId, user_id := u, service_id := sid,
            start_time := t, end_time := t + service.duration_minutes,
            status := .pending, created_at := now } ∧
      st2 = { st with bookings := st.bookings ++ [b], nextId := st.nextId + 1 } := by
  unfold create_booking at h
  split at h
  · simp at h
  next hnow =>
    split at h
    · simp at h
    next service hsvc =>
      split at h
      · simp at h
      next hact =>
        split at h
        · simp at h
        next hconf =>
          obtain ⟨hb, hst2, _, _, hnil⟩ := create_from_dict_ok h
          refine ⟨service, hsvc, by simpa using hact, by omega, ?_, hb, hst2⟩
          simpa using hconf

/-! Shapes of the update path. -/

/-- A found booking is a member of the table with the looked-up id. -/
theorem get_by_id_some {bs : List Booking} {i : Nat} {b : Booking}
    (h : get_by_id bs i = some b) : b ∈ bs ∧ b.id = i := by
  unfold get_by_id at h
  refine ⟨List.mem_of_find?_eq_some h, ?_⟩
  have := List.find?_some h
  simpa using this

/-- Field application never touches id, owner, service or creation
time. -/
theorem applyValidFields_frame (b : Booking) (p : UpdatePayload) :
    (applyValidFields b p).id = b.id ∧
    (applyValidFields b p).user_id = b.user_id ∧
    (applyValidFields b p).service_id = b.service_id ∧
    (applyValidFields b p).created_at = b.created_at :=
  ⟨rfl, rfl, rfl, rfl⟩

/-- Success cases of the service-layer status branch: either no status
was requested, or the requested status is kept, and the caller is an
admin or an owner cancelling an active booking. -/
theorem statusUpdate_ok {b : Booking} {adm : Bool} {s? o : Option BookingStatus}
    (h : statusUpdate b adm s? = .ok o) :
    (s? = none ∧ o = none) ∨
      ∃ v, s? = some v ∧ o = some v ∧
        (adm = true ∨ (v = .cancelled ∧ isActiveStatus b.status = true)) := by
  cases s? with
  | none =>
    simp only [statusUpdate] at h
    injection h with h
    exact Or.inl ⟨rfl, h.symm⟩
  | some v =>
    right
    simp only [statusUpdate] at h
    split at h
    · next hadm =>
      injection h with h
      exact ⟨v, rfl, h.symm, Or.inl hadm⟩
    split at h
    · next hcv =>
      split at h
      · next hactb =>
        injection h with h
        exact ⟨v, rfl, h.symm, Or.inr ⟨hcv, hactb⟩⟩
      · simp at h
    · simp at h

/-- Success cases of the service-layer reschedule branch: either no new
start was requested, or the booking is active, the new start is in the
future, the service exists and the conflict re-check is empty. -/
theorem rescheduleUpdate_ok {st : StoreState} {now : Nat} {b : Booking} {bid : Nat}
    {t? : Option Nat} {o : Option (Nat × Nat)}
    (h : rescheduleUpdate st now b bid t? = .ok o) :
    (t? = none ∧ o = none) ∨
      ∃ t service, t? = some t ∧ getService st b.service_id = some service ∧
        o = some (t, t + service.duration_minutes) ∧
        isActiveStatus b.status = true ∧ now < t ∧
        find_overlapping_bookings st.bookings b.service_id t
          (t + service.duration_minutes) (some bid) = [] := by
  cases t? with
  | none =>
    simp only [rescheduleUpdate] at h
    injection h with h
    exact Or.inl ⟨rfl, h.symm⟩
  | some t =>
    right
    simp only [rescheduleUpdate] at h
    split at h
    · simp at h
    next hactb =>
      split at h
      · simp at h
      next hfut =>
        split at h
        · simp at h
        next service hsvc =>
          split at h
          · simp at h
          next hconf =>
            injection h with h
            exact ⟨t, service, rfl, hsvc, h.symm, by simpa using hactb,
              by omega, by simpa using hconf⟩

/-- A successful repository status check into an active status implies
the current status was active. -/
theorem active_cur_of_checkStatus {cur v : BookingStatus}
    (h : checkStatusTransition cur (some v) = .ok ())
    (hv : isActiveStatus v = true) : isActiveStatus cur = true := by
  cases cur <;> cases v <;> simp_all [checkStatusTransition, isActiveStatus]

/-- A successful repository status check from a terminal status forces
the requested status to equal the current one. -/
theorem terminal_checkStatus {cur v : BookingStatus}
    (h : checkStatusTransition cur (some v) = .ok ())
    (hterm : isActiveStatus cur = false) : v = cur := by
  cases cur <;> cases v <;> simp_all [checkStatusTransition, isActiveStatus]

/-- Success facts of the repository time check when a time field is
supplied. -/
theorem checkReschedule_ok {st : StoreState} {now : Nat} {b : Booking}
    {p : UpdatePayload} (h : checkReschedule st now b p = .ok ())
    (hne : ¬(p.start_time = none ∧ p.end_time = none)) :
    p.start_time.getD b.start_time < p.end_time.getD b.end_time ∧
    now ≤ p.start_time.getD b.start_time ∧
    find_overlapping_bookings st.bookings b.service_id
      (p.start_time.getD b.start_time) (p.end_time.getD b.end_time)
      (some b.id) = [] := by
  unfold checkReschedule at h
  split at h
  · exact absurd ‹_› hne
  split at h
  · simp at h
  next hord =>
    split at h
    · simp at h
    next hpast =>
      split at h
      · simp at h
      next hconf =>
        exact ⟨by omega, by omega, by simpa using hconf⟩

/-- Success shape of the repository update. -/
theorem repo_update_ok {st : StoreState} {now : Nat} {commitOk : Bool}
    {b : Booking} {p : UpdatePayload} {st2 : StoreState} {b2 : Booking}
    (h : repo_update st now commitOk b p = (st2, .ok b2)) :
    b2 = applyValidFields b p ∧
    st2 = { st with bookings := replaceById st.bookings b.id b2 } ∧
    checkStatusTransition b.status p.status = .ok () ∧
    checkReschedule st now b p = .ok () ∧ commitOk = true := by
  unfold repo_update at h
  split at h
  · simp at h
  next u1 hcs =>
    split at h
    · simp at h
    next u2 hcr =>
      split at h
      · next hcommit =>
        obtain ⟨h1, h2⟩ := Prod.mk.injEq .. ▸ h
        injection h2 with h2
        subst h2
        exact ⟨rfl, h1.symm, by cases u1; exact hcs, by cases u2; exact hcr, hcommit⟩
      · simp at h

/-- Success shape of the service-layer update. -/
theorem update_booking_ok {st : StoreState} {now : Nat} {commitOk : Bool}
    {bid uid : Nat} {adm : Bool} {t? : Option Nat} {s? : Option BookingStatus}
    {st2 : StoreState} {b2 : Booking}
    (h : update_booking st now commitOk bid uid adm t? s? = (st2, .ok b2)) :
    ∃ booking stUpd tUpd,
      get_by_id st.bookings bid = some booking ∧
      (adm = true ∨ booking.user_id = uid) ∧
      statusUpdate booking adm s? = .ok stUpd ∧
      rescheduleUpdate st now booking bid t? = .ok tUpd ∧
      ¬(stUpd = none ∧ tUpd = none) ∧
      repo_update st now commitOk booking
        { start_time := tUpd.map Prod.fst, end_time := tUpd.map Prod.snd,
          status := stUpd } = (st2, .ok b2) := by
  unfold update_booking at h
  split at h
  · simp at h
  next booking hfind =>
    split at h
    · simp at h
    next hauth =>
      split at h
      · simp at h
      next stUpd hsu =>
        split at h
        · simp at h
        next tUpd hru =>
          split at h
          · simp at h
          next hne =>
            refine ⟨booking, stUpd, tUpd, hfind, ?_, hsu, hru, hne, h⟩
            by_cases hA : adm = true
            · exact Or.inl hA
            · right
              have : adm = false := by
                cases adm
                · rfl
                · exact absurd rfl hA
              by_contra hneq
              exact hauth ⟨this, hneq⟩

/-- Success shape of the service-layer delete. -/
theorem delete_booking_ok {st : StoreState} {now : Nat} {commitOk : Bool}
    {bid uid : Nat} {adm : Bool} {st2 : StoreState} {v : Bool}
    (h : delete_booking st now commitOk bid uid adm = (st2, .ok v)) :
    ∃ booking,
      get_by_id st.bookings bid = some booking ∧
      (adm = true ∨ booking.user_id = uid) ∧
      now < booking.start_time ∧ booking.status ≠ .completed ∧
      st2 = { st with
              bookings := st.bookings.filter (fun x => x.id != booking.id) } := by
  unfold delete_booking repo_delete at h
  split at h
  · simp at h
  next booking hfind =>
    split at h
    · simp at h
    next hauth =>
      split at h
      · simp at h
      next hstart1 =>
        split at h
        · simp at h
        next hcomp1 =>
          split at h
          · simp at h
          next hstart2 =>
            split at h
            · simp at h
            next hcomp2 =>
              split at h
              · next =>
                obtain ⟨h1, _⟩ := Prod.mk.injEq .. ▸ h
                refine ⟨booking, hfind, ?_, by omega, hcomp2, h1.symm⟩
                by_cases hA : adm = true
                · exact Or.inl hA
                · right
                  have hf : adm = false := by
                    cases adm
                    · rfl
                    · exact absurd rfl hA
                  by_contra hneq
                  exact hauth ⟨hf, hneq⟩
              · simp at h

/-! Preservation of the store invariant. -/

/-- Replacing a row yields rows of the original table or the new row. -/
theorem mem_replaceById {bs : List Booking} {i : Nat} {b x : Booking}
    (h : x ∈ replaceById bs i b) : x ∈ bs ∨ x = b := by
  unfold replaceById at h
  obtain ⟨y, hy, hxy⟩ := List.mem_map.1 h
  by_cases hyi : y.id = i
  · simp only [hyi, if_pos] at hxy
    exact Or.inr hxy.symm
  · simp only [hyi, if_neg, not_false_iff] at hxy
    exact Or.inl (hxy ▸ hy)

/-- Replacing a row by one with the same primary key leaves the key
column unchanged. -/
theorem map_id_replaceById {bs : List Booking} {i : Nat} {b : Booking}
    (hb : b.id = i) :
    (replaceById bs i b).map Booking.id = bs.map Booking.id := by
  unfold replaceById
  rw [List.map_map]
  apply List.map_congr_left
  intro x _
  by_cases hxi : x.id = i
  · simp [hxi, hb]
  · simp [hxi]

/-- Replacing a row by a compatible one preserves the
no-double-booking invariant. -/
theorem noDoubleBooking_replaceById {bs : List Booking} {i : Nat} {b2 : Booking}
    (hids : idsDistinct bs) (hpw : noDoubleBooking bs)
    (hcomp : ∀ x ∈ bs, x.id ≠ i → compatible x b2) :
    noDoubleBooking (replaceById bs i b2) := by
  unfold noDoubleBooking replaceById
  rw [List.pairwise_map]
  have hne0 : List.Pairwise (fun a c : Nat => a ≠ c) (bs.map Booking.id) := hids
  have hne : List.Pairwise (fun a c : Booking => a.id ≠ c.id) bs :=
    List.pairwise_map.1 hne0
  have hcombo := hpw.and hne
  refine hcombo.imp_of_mem ?_
  intro a c ha hc hac
  obtain ⟨hcomp_ac, hne_ac⟩ := hac
  by_cases hai : a.id = i
  · by_cases hci : c.id = i
    · exact absurd (hai.trans hci.symm) hne_ac
    · simp only [hai, if_pos, hci, if_neg, not_false_iff]
      exact compatible_comm (hcomp c hc hci)
  · by_cases hci : c.id = i
    · simp only [hai, if_neg, not_false_iff, hci, if_pos]
      exact hcomp a ha hai
    · simp only [hai, if_neg, not_false_iff, hci]
      exact hcomp_ac

/-- Creation preserves the store invariant. -/
theorem create_preserves_inv {st : StoreState} {now : Nat} {commitOk : Bool}
    {u sid t : Nat} (h : StoreInv st) :
    StoreInv (create_booking st now commitOk u sid t).1 := by
  obtain ⟨hfresh, hids, hpw⟩ := h
  rcases hr : create_booking st now commitOk u sid t with ⟨st2, r⟩
  rcases create_booking_cases st now commitOk u sid t st2 r hr with hst | ⟨b, rfl⟩
  · dsimp only
    rw [hst]
    exact ⟨hfresh, hids, hpw⟩
  · obtain ⟨svc, hsvc, hact, hlt, hnil, hb, hst2⟩ := create_booking_ok hr
    dsimp only
    rw [hst2]
    have hbid : b.id = st.nextId := by rw [hb]
    have hbsvc : b.service_id = sid := by rw [hb]
    have hbst : b.start_time = t := by rw [hb]
    have hbe : b.end_time = t + svc.duration_minutes := by rw [hb]
    refine ⟨?_, ?_, ?_⟩
    · intro x hx
      simp only [List.mem_append, List.mem_singleton] at hx
      rcases hx with hx | rfl
      · exact Nat.lt_succ_of_lt (hfresh x hx)
      · rw [hbid]
        exact Nat.lt_succ_self _
    · show ((st.bookings ++ [b]).map Booking.id).Nodup
      rw [List.map_append]
      refine List.Nodup.append hids (List.nodup_singleton _) ?_
      intro a ha hb2
      simp only [List.map_cons, List.map_nil, List.mem_singleton] at hb2
      obtain ⟨x, hx, hxa⟩ := List.mem_map.1 ha
      have hlt2 : a < st.nextId := hxa ▸ hfresh x hx
      rw [hb2, hbid] at hlt2
      exact Nat.lt_irrefl _ hlt2
    · show List.Pairwise compatible (st.bookings ++ [b])
      rw [List.pairwise_append]
      refine ⟨hpw, List.pairwise_singleton _ _, ?_⟩
      intro a ha b2 hb2
      simp only [List.mem_singleton] at hb2
      subst hb2
      intro hsvceq hacta hactb hov
      obtain ⟨h1, h2⟩ := hov
      rw [hbe] at h1
      rw [hbst] at h2
      exact not_overlapping_of_nil_none hnil ha (hsvceq.trans hbsvc) hacta ⟨h1, h2⟩

/-- Update (reschedule or status change) preserves the store invariant. -/
theorem update_preserves_inv {st : StoreState} {now : Nat} {commitOk : Bool}
    {bid uid : Nat} {adm : Bool} {t? : Option Nat} {s? : Option BookingStatus}
    (h : StoreInv st) :
    StoreInv (update_booking st now commitOk bid uid adm t? s?).1 := by
  obtain ⟨hfresh, hids, hpw⟩ := h
  rcases hr : update_booking st now commitOk bid uid adm t? s? with ⟨st2, r⟩
  rcases update_booking_cases st now commitOk bid uid adm t? s? st2 r hr with hst | ⟨b2, rfl⟩
  · dsimp only
    rw [hst]
    exact ⟨hfresh, hids, hpw⟩
  · obtain ⟨booking, stUpd, tUpd, hfind, hauth, hsu, hru, hne2, hrepo⟩ :=
      update_booking_ok hr
    obtain ⟨hb2, hst2, hcst, hcrs, hcommit⟩ := repo_update_ok hrepo
    obtain ⟨hmem, hbkid⟩ := get_by_id_some hfind
    dsimp only
    rw [hst2]
    have hb2id : b2.id = booking.id := by rw [hb2]; rfl
    have hb2svc : b2.service_id = booking.service_id := by rw [hb2]; rfl
    refine ⟨?_, ?_, ?_⟩
    · intro x hx
      rcases mem_replaceById hx with hx | rfl
      · exact hfresh x hx
      · rw [hb2id]
        exact hfresh booking hmem
    · show ((replaceById st.bookings booking.id b2).map Booking.id).Nodup
      rw [map_id_replaceById hb2id]
      exact hids
    · apply noDoubleBooking_replaceById hids hpw
      intro x hx hxid
      intro hsvceq hactx hactb2 hov
      rcases rescheduleUpdate_ok hru with ⟨htn, hon⟩ | ⟨t, svc, hts, hsvc2, hosome, hactbk, hfut, hnil2⟩
      · -- no time field: the interval is unchanged, so the old pairwise
        -- invariant transfers.
        subst hon
        have hb2s : b2.start_time = booking.start_time := by rw [hb2]; rfl
        have hb2e : b2.end_time = booking.end_time := by rw [hb2]; rfl
        have hactbk : isActiveStatus booking.status = true := by
          rcases statusUpdate_ok hsu with ⟨hsn, hson⟩ | ⟨v, hsv, hsov, hvadm⟩
          · subst hson
            have : b2.status = booking.status := by rw [hb2]; rfl
            rw [← this]
            exact hactb2
          · subst hsov
            have hb2st : b2.status = v := by rw [hb2]; rfl
            rw [hb2st] at hactb2
            exact active_cur_of_checkStatus (by simpa [hsv] using hcst) hactb2
        have hxne : x ≠ booking := fun hEq => hxid (congrArg Booking.id hEq)
        have hcompat : compatible x booking :=
          hpw.forall (fun a b hab => compatible_comm hab) hx hmem hxne
        obtain ⟨h1, h2⟩ := hov
        rw [hb2e] at h1
        rw [hb2s] at h2
        exact hcompat (hsvceq.trans hb2svc) hactx hactbk ⟨h1, h2⟩
      · -- time fields supplied: the conflict re-check covers every other
        -- active booking of the service.
        subst hosome
        have hb2s : b2.start_time = t := by rw [hb2]; rfl
        have hb2e : b2.end_time = t + svc.duration_minutes := by rw [hb2]; rfl
        have hxbid : x.id ≠ bid := by
          rw [← hbkid]
          exact hxid
        obtain ⟨h1, h2⟩ := hov
        rw [hb2e] at h1
        rw [hb2s] at h2
        exact not_overlapping_of_nil_some hnil2 hx (hsvceq.trans hb2svc) hactx hxbid ⟨h1, h2⟩

/-- Deletion preserves the store invariant. -/
theorem delete_preserves_inv {st : StoreState} {now : Nat} {commitOk : Bool}
    {bid uid : Nat} {adm : Bool} (h : StoreInv st) :
    StoreInv (delete_booking st now commitOk bid uid adm).1 := by
  obtain ⟨hfresh, hids, hpw⟩ := h
  rcases hr : delete_booking st now commitOk bid uid adm with ⟨st2, r⟩
  rcases delete_booking_cases st now commitOk bid uid adm st2 r hr with hst | ⟨v, rfl⟩
  · dsimp only
    rw [hst]
    exact ⟨hfresh, hids, hpw⟩
  · obtain ⟨booking, hfind, hauth, hstart, hcomp, hst2⟩ := delete_booking_ok hr
    dsimp only
    rw [hst2]
    have hsub : List.Sublist (st.bookings.filter (fun x => x.id != booking.id)) st.bookings :=
      List.filter_sublist _
    refine ⟨?_, ?_, ?_⟩
    · intro x hx
      exact hfresh x (hsub.subset hx)
    · show ((st.bookings.filter (fun x => x.id != booking.id)).map Booking.id).Nodup
      exact List.Nodup.sublist (hsub.map Booking.id) hids
    · exact List.Pairwise.sublist hsub hpw

/-! The claims. -/

/-- C1: for every store state satisfying the reachable-state invariant
(distinct primary keys and pairwise non-overlap of active bookings per
service) and every lifecycle operation — create, update (reschedule or
status change), cancel, delete — the resulting state satisfies the
invariant again: for each fixed `service_id`, any two distinct bookings
with status pending or confirmed satisfy
NOT (`A.start_time < B.end_time` AND `A.end_time > B.start_time`). -/
theorem lifecycle_preserves_no_double_booking
    (st : StoreState) (now : Nat) (commitOk : Bool) (op : BookingOp)
    (h : StoreInv st) : StoreInv (applyOp st now commitOk op) := by
  cases op with
  | createOp u sid t => exact create_preserves_inv h
  | updateOp bid uid adm t? s? => exact update_preserves_inv h
  | cancelOp bid uid => exact update_preserves_inv h
  | deleteOp bid uid adm => exact delete_preserves_inv h

/-- Witness for C1: creating a boundary-adjacent booking preserves the
invariant on a concrete store. -/
theorem lifecycle_preserves_no_double_booking_witness :
    StoreInv exStConfirmed ∧
      StoreInv (applyOp exStConfirmed 100 true (.createOp 7 1 2060)) :=
  ⟨by decide,
   lifecycle_preserves_no_double_booking exStConfirmed 100 true
     (.createOp 7 1 2060) (by decide)⟩

/-- C2: conflict detection uses exactly half-open interval semantics: a
same-service active booking is reported for candidate `[s, e)` iff
`start_time < e` and `end_time > s`; in particular a booking ending
exactly at `s` is never reported for a candidate starting at `s`, while
it is reported for a candidate starting at `s - 1` minute (for any
candidate end at or past `s`). -/
theorem conflict_half_open_semantics
    (bs : List Booking) (service_id s e e2 : Nat) (b : Booking)
    (hb : b ∈ bs) (hsvc : b.service_id = service_id)
    (hact : isActiveStatus b.status = true) :
    (b ∈ find_overlapping_bookings bs service_id s e none ↔
      b.start_time < e ∧ s < b.end_time) ∧
    (b.end_time = s → b ∉ find_overlapping_bookings bs service_id s e none) ∧
    (b.end_time = s → b.start_time < s → 1 ≤ s → s ≤ e2 →
      b ∈ find_overlapping_bookings bs service_id (s - 1) e2 none) := by
  refine ⟨?_, ?_, ?_⟩
  · rw [mem_find_overlapping_none]
    constructor
    · rintro ⟨_, _, _, h1, h2⟩
      exact ⟨h1, h2⟩
    · rintro ⟨h1, h2⟩
      exact ⟨hb, hsvc, hact, h1, h2⟩
  · intro hend hmem
    rw [mem_find_overlapping_none] at hmem
    omega
  · intro hend hstart hs1 hse
    rw [mem_find_overlapping_none]
    exact ⟨hb, hsvc, hact, by omega, by omega⟩

/-- Witness for C2: the boundary cases at `s = 2060` on a concrete
store. -/
theorem conflict_half_open_semantics_witness :
    (exConfirmed ∈ [exConfirmed] ∧ exConfirmed.service_id = 1 ∧
      isActiveStatus exConfirmed.status = true) ∧
    ((exConfirmed ∈ find_overlapping_bookings [exConfirmed] 1 2060 2120 none ↔
        exConfirmed.start_time < 2120 ∧ 2060 < exConfirmed.end_time) ∧
      (exConfirmed.end_time = 2060 →
        exConfirmed ∉ find_overlapping_bookings [exConfirmed] 1 2060 2120 none) ∧
      (exConfirmed.end_time = 2060 → exConfirmed.start_time < 2060 →
        1 ≤ 2060 → 2060 ≤ 2120 →
        exConfirmed ∈ find_overlapping_bookings [exConfirmed] 1 (2060 - 1) 2120 none)) :=
  ⟨⟨by decide, by decide, by decide⟩,
   conflict_half_open_semantics [exConfirmed] 1 2060 2120 2120 exConfirmed
     (by decide) (by decide) (by decide)⟩

/-- C6: every successful `create_booking` — which requires a strictly
future start, an existing active service and an empty conflict check —
persists a booking with `end_time = start_time + duration` and status
pending, appended to the store and returned to the caller. -/
theorem create_booking_correct (st : StoreState) (now : Nat) (commitOk : Bool)
    (u sid t : Nat) (service : Service) (st2 : StoreState) (b : Booking)
    (hsvc : getService st sid = some service)
    (h : create_booking st now commitOk u sid t = (st2, .ok b)) :
    service.is_active = true ∧ now < t ∧
    b.end_time = t + service.duration_minutes ∧ b.status = .pending ∧
    b.start_time = t ∧ b.user_id = u ∧ b.service_id = sid ∧
    st2.bookings = st.bookings ++ [b] ∧
    find_overlapping_bookings st.bookings sid t (t + service.duration_minutes) none
      = [] := by
  obtain ⟨svc2, hsvc2, hact, hlt, hnil, hb, hst2⟩ := create_booking_ok h
  have hsame : svc2 = service := by
    rw [hsvc] at hsvc2
    exact (Option.some.injEq _ _ ▸ hsvc2).symm
  subst hsame
  refine ⟨hact, hlt, ?_, ?_, ?_, ?_, ?_, ?_, hnil⟩
  · rw [hb]
  · rw [hb]
  · rw [hb]
  · rw [hb]
  · rw [hb]
  · rw [hst2]

/-- Witness for C6: a concrete successful creation on the empty store. -/
theorem create_booking_correct_witness :
    (getService exEmpty 1 = some exService ∧
      create_booking exEmpty 100 true 7 1 200 = (exStAfterCreate, .ok exCreated)) ∧
    (exService.is_active = true ∧ 100 < 200 ∧
      exCreated.end_time = 200 + exService.duration_minutes ∧
      exCreated.status = .pending ∧ exCreated.start_time = 200 ∧
      exCreated.user_id = 7 ∧ exCreated.service_id = 1 ∧
      exStAfterCreate.bookings = exEmpty.bookings ++ [exCreated] ∧
      find_overlapping_bookings exEmpty.bookings 1 200
        (200 + exService.duration_minutes) none = []) :=
  ⟨⟨rfl, rfl⟩,
   create_booking_correct exEmpty 100 true 7 1 200 exService exStAfterCreate
     exCreated rfl rfl⟩

/-- C8: whenever create, update, cancel or delete returns any failure —
validation, not-found, authorization, conflict or infrastructure — the
booking store is exactly as it was before the call. -/
theorem failure_leaves_store_unchanged (st : StoreState) (now : Nat)
    (commitOk : Bool) :
    (∀ u sid t st2 e, create_booking st now commitOk u sid t = (st2, .error e) →
      st2 = st) ∧
    (∀ bid uid adm t? s? st2 e,
      update_booking st now commitOk bid uid adm t? s? = (st2, .error e) →
      st2 = st) ∧
    (∀ bid uid st2 e, cancel_booking st now commitOk bid uid = (st2, .error e) →
      st2 = st) ∧
    (∀ bid uid adm st2 e,
      delete_booking st now commitOk bid uid adm = (st2, .error e) → st2 = st) := by
  refine ⟨?_, ?_, ?_, ?_⟩
  · intro u sid t st2 e h
    rcases create_booking_cases st now commitOk u sid t st2 (.error e) h with hst | ⟨b, hb⟩
    · exact hst
    · exact absurd hb (by simp)
  · intro bid uid adm t? s? st2 e h
    rcases update_booking_cases st now commitOk bid uid adm t? s? st2 (.error e) h with hst | ⟨b, hb⟩
    · exact hst
    · exact absurd hb (by simp)
  · intro bid uid st2 e h
    rcases update_booking_cases st now commitOk bid uid false none
        (some .cancelled) st2 (.error e) h with hst | ⟨b, hb⟩
    · exact hst
    · exact absurd hb (by simp)
  · intro bid uid adm st2 e h
    rcases delete_booking_cases st now commitOk bid uid adm st2 (.error e) h with hst | ⟨b, hb⟩
    · exact hst
    · exact absurd hb (by simp)

/-- Witness for C8: a concrete failing creation (past start time) leaves
the concrete store unchanged. -/
theorem failure_leaves_store_unchanged_witness :
    create_booking exEmpty 100 true 7 1 50 =
      (exEmpty, .error (.validation "Booking start time must be in the future")) ∧
    exEmpty = exEmpty :=
  ⟨rfl, (failure_leaves_store_unchanged exEmpty 100 true).1 7 1 50 exEmpty
    (.validation "Booking start time must be in the future") rfl⟩

/-- Replacing a row of a duplicate-free table by itself is the
identity. -/
theorem replaceById_self {bs : List Booking} (hids : idsDistinct bs)
    {b : Booking} (hb : b ∈ bs) : replaceById bs b.id b = bs := by
  unfold replaceById
  have hmap : bs.map (fun x => if x.id = b.id then b else x) = bs.map id := by
    apply List.map_congr_left
    intro x hx
    by_cases hxi : x.id = b.id
    · have hxb : x = b := List.inj_on_of_nodup_map hids hx hb hxi
      simp [hxi, hxb]
    · simp [hxi]
  rw [hmap, List.map_id]

/-- C10: for every update call on an existing booking, with any update
payload — including one that tries to set id, owner, service or
creation time — the fields `id`, `user_id`, `service_id` and
`created_at` are unchanged in the updated row, and the store changes
only by replacing that row. -/
theorem update_preserves_immutable_fields (st : StoreState) (now : Nat)
    (commitOk : Bool) (b : Booking) (p : UpdatePayload) (st2 : StoreState)
    (b2 : Booking) (h : repo_update st now commitOk b p = (st2, .ok b2)) :
    b2.id = b.id ∧ b2.user_id = b.user_id ∧ b2.service_id = b.service_id ∧
    b2.created_at = b.created_at ∧
    st2.bookings = replaceById st.bookings b.id b2 := by
  obtain ⟨hb2, hst2, _, _, _⟩ := repo_update_ok h
  subst hb2
  exact ⟨rfl, rfl, rfl, rfl, by rw [hst2]⟩

/-- Witness for C10: a payload that supplies id, owner, service and
creation-time overrides leaves those fields untouched. -/
theorem update_preserves_immutable_fields_witness :
    repo_update exStConfirmed 100 true exConfirmed exPayload =
      ({ exStConfirmed with bookings := [exCancelledRes] }, .ok exCancelledRes) ∧
    (exCancelledRes.id = exConfirmed.id ∧
      exCancelledRes.user_id = exConfirmed.user_id ∧
      exCancelledRes.service_id = exConfirmed.service_id ∧
      exCancelledRes.created_at = exConfirmed.created_at ∧
      ({ exStConfirmed with bookings := [exCancelledRes] } : StoreState).bookings =
        replaceById exStConfirmed.bookings exConfirmed.id exCancelledRes) :=
  ⟨rfl,
   update_preserves_immutable_fields exStConfirmed 100 true exConfirmed exPayload
     { exStConfirmed with bookings := [exCancelledRes] } exCancelledRes rfl⟩

/-- C4 is refuted as stated: an admin status update that re-asserts
`completed` on a completed booking succeeds, so not every update call
against a terminal booking fails. -/
theorem terminal_update_counterexample :
    isOkE (update_booking exStCompleted 100 true 9 7 true none
      (some .completed)).2 = true := rfl

/-- C4 (amended): once a booking is completed or cancelled, the only
update call that succeeds against it is an admin status update
re-asserting the current status; it returns the booking unchanged and
leaves the bookings table unchanged, so `start_time`, `end_time` and
`status` of a terminal booking never change. -/
theorem terminal_booking_immutable (st : StoreState) (now : Nat)
    (commitOk : Bool) (bid uid : Nat) (adm : Bool) (t? : Option Nat)
    (s? : Option BookingStatus) (st2 : StoreState) (b2 : Booking) (b : Booking)
    (hb : get_by_id st.bookings bid = some b)
    (hterm : isActiveStatus b.status = false)
    (hids : idsDistinct st.bookings)
    (h : update_booking st now commitOk bid uid adm t? s? = (st2, .ok b2)) :
    b2 = b ∧ adm = true ∧ s? = some b.status ∧ t? = none ∧
    st2.bookings = st.bookings := by
  obtain ⟨booking, stUpd, tUpd, hfind, hauth, hsu, hru, hne2, hrepo⟩ :=
    update_booking_ok h
  obtain ⟨hb2, hst2, hcst, hcrs, hcommit⟩ := repo_update_ok hrepo
  have hbeq : booking = b := by
    rw [hb] at hfind
    exact (Option.some.injEq _ _ ▸ hfind).symm
  subst hbeq
  have htU : tUpd = none := by
    rcases rescheduleUpdate_ok hru with ⟨_, hon⟩ | ⟨t, svc, _, _, _, hactbk, _, _⟩
    · exact hon
    · rw [hactbk] at hterm
      exact absurd hterm (by simp)
  have ht? : t? = none := by
    rcases rescheduleUpdate_ok hru with ⟨htn, _⟩ | ⟨t, svc, _, _, hosome, hactbk, _, _⟩
    · exact htn
    · rw [hactbk] at hterm
      exact absurd hterm (by simp)
  subst htU
  obtain ⟨v, hsv, hsov, hvadm⟩ : ∃ v, s? = some v ∧ stUpd = some v ∧
      (adm = true ∨ (v = .cancelled ∧ isActiveStatus booking.status = true)) := by
    rcases statusUpdate_ok hsu with ⟨hsn, hson⟩ | hsome
    · exact absurd ⟨hson, rfl⟩ hne2
    · exact hsome
  have hadm : adm = true := by
    rcases hvadm with hA | ⟨_, hactbk⟩
    · exact hA
    · rw [hactbk] at hterm
      exact absurd hterm (by simp)
  have hvcur : v = booking.status := by
    apply terminal_checkStatus _ hterm
    rw [hsov] at hcst
    exact hcst
  have hb2eq : b2 = booking := by
    rw [hb2, hsov, hvcur]
    rfl
  subst hb2eq
  refine ⟨rfl, hadm, by rw [hsv, hvcur], ht?, ?_⟩
  rw [hst2]
  show replaceById st.bookings b2.id b2 = st.bookings
  exact replaceById_self hids (get_by_id_some hfind).1

/-- Witness for C4 (amended): the admin self-loop on a concrete
completed booking returns it unchanged. -/
theorem terminal_booking_immutable_witness :
    (get_by_id exStCompleted.bookings 9 = some exCompleted ∧
      isActiveStatus exCompleted.status = false ∧
      idsDistinct exStCompleted.bookings ∧
      update_booking exStCompleted 100 true 9 7 true none (some .completed) =
        (exStCompleted, .ok exCompleted)) ∧
    (exCompleted = exCompleted ∧ true = true ∧
      (some BookingStatus.completed : Option BookingStatus) = some exCompleted.status ∧
      (none : Option Nat) = none ∧
      exStCompleted.bookings = exStCompleted.bookings) :=
  ⟨⟨rfl, rfl, by decide, rfl⟩,
   terminal_booking_immutable exStCompleted 100 true 9 7 true none
     (some .completed) exStCompleted exCompleted exCompleted rfl rfl (by decide) rfl⟩

/-- C3 is refuted as stated: the triple (confirmed, pending, admin) is
not in the §4.3 table, yet the status-change request succeeds. -/
theorem status_transition_counterexample :
    specTableAllows .confirmed .pending true = false ∧
    (update_booking exStConfirmed 100 true 5 7 true none (some .pending)).2 =
      .ok { exConfirmed with status := BookingStatus.pending } :=
  ⟨rfl, rfl⟩

/-- C3 (amended): for every (current status, requested status, actor)
triple outside the code table — the §4.3 table extended with the admin
edges pending→pending, confirmed→pending, confirmed→confirmed,
completed→completed and cancelled→cancelled — a status-change request
through update fails with a Validation or Authorization error and never
succeeds. -/
theorem status_transition_completeness (st : StoreState) (now : Nat)
    (commitOk : Bool) (bid uid : Nat) (adm : Bool) (b : Booking)
    (new : BookingStatus) (hb : get_by_id st.bookings bid = some b)
    (hnot : codeAllowsTransition b.status new adm = false) :
    isValidationOrAuthE
      (update_booking st now commitOk bid uid adm none (some new)).2 = true := by
  unfold update_booking
  rw [hb]
  obtain ⟨bid2, buid, bsvc, bst, bet, bstatus, bca⟩ := b
  cases adm with
  | true =>
    cases bstatus <;> cases new <;>
      simp_all [codeAllowsTransition, isActiveStatus, statusUpdate,
        rescheduleUpdate, repo_update, checkStatusTransition, checkReschedule,
        isValidationOrAuthE]
  | false =>
    by_cases hown : buid = uid
    · subst hown
      cases bstatus <;> cases new <;>
        simp_all [codeAllowsTransition, isActiveStatus, statusUpdate,
          rescheduleUpdate, repo_update, checkStatusTransition, checkReschedule,
          isValidationOrAuthE]
    · cases bstatus <;> cases new <;>
        simp_all [codeAllowsTransition, isActiveStatus, statusUpdate,
          rescheduleUpdate, repo_update, checkStatusTransition, checkReschedule,
          isValidationOrAuthE, hown]

/-- Witness for C3 (amended): an owner requesting `confirmed` on their
own confirmed booking fails with an authorization error. -/
theorem status_transition_completeness_witness :
    (get_by_id exStConfirmed.bookings 5 = some exConfirmed ∧
      codeAllowsTransition exConfirmed.status .confirmed false = false) ∧
    isValidationOrAuthE
      (update_booking exStConfirmed 100 true 5 7 false none
        (some .confirmed)).2 = true :=
  ⟨⟨rfl, rfl⟩,
   status_transition_completeness exStConfirmed 100 true 5 7 false exConfirmed
     .confirmed rfl rfl⟩

/-- C5 is refuted as stated: an admin delete of a booking that has
already started fails with a validation error raised by the repository,
so admin deletion is not unconditional. -/
theorem admin_delete_counterexample :
    (delete_booking exStConfirmed 3000 true 5 7 true).2 =
      .error (.validation "Cannot delete booking that has already started") := rfl

/-- C5 (amended): the service layer applies the already-started and
completed restrictions only to non-admin owners, but the repository
re-applies both to every caller; hence an owner delete of a started or
completed booking fails with Validation, an admin delete of a started
or completed booking also fails with Validation, and an admin delete
succeeds exactly on not-yet-started, not-completed bookings, removing
the row. -/
theorem delete_booking_rules (st : StoreState) (now : Nat) (commitOk : Bool)
    (bid uid : Nat) (b : Booking) (hb : get_by_id st.bookings bid = some b) :
    (b.user_id = uid → b.start_time ≤ now →
      isValidationE (delete_booking st now commitOk bid uid false).2 = true) ∧
    (b.user_id = uid → b.status = .completed →
      isValidationE (delete_booking st now commitOk bid uid false).2 = true) ∧
    (b.start_time ≤ now →
      isValidationE (delete_booking st now commitOk bid uid true).2 = true) ∧
    (b.status = .completed →
      isValidationE (delete_booking st now commitOk bid uid true).2 = true) ∧
    (now < b.start_time → b.status ≠ .completed →
      delete_booking st now true bid uid true =
        ({ st with bookings := st.bookings.filter (fun x => x.id != b.id) },
         .ok true)) := by
  unfold delete_booking repo_delete
  rw [hb]
  refine ⟨?_, ?_, ?_, ?_, ?_⟩
  · intro hown hstart
    simp [hown, hstart, isValidationE]
  · intro hown hcomp
    by_cases hstart : b.start_time ≤ now
    · simp [hown, hstart, isValidationE]
    · simp [hown, hstart, hcomp, isValidationE]
  · intro hstart
    simp [hstart, isValidationE]
  · intro hcomp
    by_cases hstart : b.start_time ≤ now
    · simp [hstart, isValidationE]
    · simp [hstart, hcomp, isValidationE]
  · intro hfut hncomp
    have hns : ¬ b.start_time ≤ now := by omega
    simp [hns, hncomp]

/-- Witness for C5 (amended): the delete rules instantiated on the
concrete completed booking. -/
theorem delete_booking_rules_witness :
    (get_by_id exStCompleted.bookings 9 = some exCompleted) ∧
    ((exCompleted.user_id = 7 → exCompleted.start_time ≤ 1000 →
        isValidationE (delete_booking exStCompleted 1000 true 9 7 false).2 = true) ∧
      (exCompleted.user_id = 7 → exCompleted.status = .completed →
        isValidationE (delete_booking exStCompleted 1000 true 9 7 false).2 = true) ∧
      (exCompleted.start_time ≤ 1000 →
        isValidationE (delete_booking exStCompleted 1000 true 9 7 true).2 = true) ∧
      (exCompleted.status = .completed →
        isValidationE (delete_booking exStCompleted 1000 true 9 7 true).2 = true) ∧
      (1000 < exCompleted.start_time → exCompleted.status ≠ .completed →
        delete_booking exStCompleted 1000 true 9 7 true =
          ({ exStCompleted with
              bookings := exStCompleted.bookings.filter
                (fun x => x.id != exCompleted.id) },
           .ok true))) :=
  ⟨rfl, delete_booking_rules exStCompleted 1000 true 9 7 exCompleted rfl⟩

/-- C7: through the list route, every booking a non-admin caller
receives — under any combination of status and date filters — belongs
to that caller; an admin (for whom the route passes `user_id = None`)
with no filters receives every stored booking. -/
theorem list_route_scoping (st : StoreState) (caller : Nat)
    (status : Option BookingStatus) (fd td : Option Nat) (b : Booking) :
    (b ∈ list_bookings_route st caller false status fd td →
      b.user_id = caller) ∧
    (b ∈ st.bookings → b ∈ list_bookings_route st caller true none none none) := by
  constructor
  · intro hmem
    unfold list_bookings_route get_all at hmem
    rw [mem_sortBookings] at hmem
    rcases td with _ | tv <;> rcases fd with _ | fv <;> rcases status with _ | sv <;>
      simp only [List.mem_filter, Bool.and_eq_true, beq_iff_eq,
        decide_eq_true_eq, if_neg, Bool.false_eq_true, not_false_iff,
        if_false] at hmem <;>
      tauto
  · intro hmem
    unfold list_bookings_route get_all
    rw [mem_sortBookings]
    simpa using hmem

/-- Witness for C7: scoping on a concrete store: the non-admin owner
sees their booking and it carries their id; an admin with a different
id still sees it. -/
theorem list_route_scoping_witness :
    (exConfirmed ∈ list_bookings_route exStConfirmed 7 false none none none ∧
      exConfirmed ∈ exStConfirmed.bookings) ∧
    (exConfirmed.user_id = 7 ∧
      exConfirmed ∈ list_bookings_route exStConfirmed 99 true none none none) :=
  ⟨⟨by decide, by decide⟩,
   (list_route_scoping exStConfirmed 7 none none none exConfirmed).1 (by decide),
   (list_route_scoping exStConfirmed 99 none none none exConfirmed).2 (by decide)⟩

/-- C9 is refuted as stated: with `now` at midnight and
`days_ahead = 1`, the route returns a booking whose start time is
beyond `now + days_ahead`, because the code bounds the window by the
end of the current day plus `days_ahead` days. -/
theorem upcoming_window_counterexample :
    upcoming_route exStUpcoming 0 7 1 = .ok [exUpcoming] ∧
    0 + 1 * minutesPerDay < exUpcoming.start_time :=
  ⟨rfl, by decide⟩

/-- C9 (amended): the route rejects `days_ahead` outside `[1, 365]`
with a validation error and otherwise returns exactly the bookings of
the requester with status pending or confirmed whose start time lies in
`[now, end-of-current-day + days_ahead days]` — not `[now, now +
days_ahead]` — ordered by start time ascending. -/
theorem upcoming_route_spec (st : StoreState) (now : Nat) (caller : Nat)
    (d : Int) (b : Booking) :
    ((d < 1 ∨ 365 < d) → isValidationE (upcoming_route st now caller d) = true) ∧
    (1 ≤ d → d ≤ 365 →
      upcoming_route st now caller d =
        .ok (get_upcoming_bookings st.bookings now (some caller) d.toNat)) ∧
    (b ∈ get_upcoming_bookings st.bookings now (some caller) d.toNat ↔
      (b ∈ st.bookings ∧ b.user_id = caller ∧ isActiveStatus b.status = true ∧
        now ≤ b.start_time ∧ b.start_time ≤ upcomingUpperBound now d.toNat)) ∧
    List.Pairwise startAsc
      (get_upcoming_bookings st.bookings now (some caller) d.toNat) := by
  refine ⟨?_, ?_, ?_, ?_⟩
  · intro hbad
    unfold upcoming_route
    rw [if_pos hbad]
    rfl
  · intro h1 h2
    unfold upcoming_route
    rw [if_neg (by omega)]
  · unfold get_upcoming_bookings
    rw [mem_sortBookings]
    simp only [List.mem_filter, Bool.and_eq_true, beq_iff_eq, decide_eq_true_eq]
    tauto
  · unfold get_upcoming_bookings
    exact sortBookings_sorted _ _

/-- Witness for C9 (amended): bound rejection and the window
characterization on the concrete store. -/
theorem upcoming_route_spec_witness :
    isValidationE (upcoming_route exStUpcoming 0 7 400) = true ∧
    upcoming_route exStUpcoming 0 7 1 =
      .ok (get_upcoming_bookings exStUpcoming.bookings 0 (some 7) (1 : Int).toNat) ∧
    (exUpcoming ∈ get_upcoming_bookings exStUpcoming.bookings 0 (some 7)
        (1 : Int).toNat ↔
      (exUpcoming ∈ exStUpcoming.bookings ∧ exUpcoming.user_id = 7 ∧
        isActiveStatus exUpcoming.status = true ∧ 0 ≤ exUpcoming.start_time ∧
        exUpcoming.start_time ≤ upcomingUpperBound 0 (1 : Int).toNat)) :=
  ⟨(upcoming_route_spec exStUpcoming 0 7 400 exUpcoming).1 (by omega),
   (upcoming_route_spec exStUpcoming 0 7 1 exUpcoming).2.1 (by omega) (by omega),
   (upcoming_route_spec exStUpcoming 0 7 1 exUpcoming).2.2.1⟩

end BookIt
